import Mathlib

/-!
Shallow embedding of the Bayesian-optimization sandbox notebook
(src/bayesopt_sandbox.ipynb) and proofs about its claims.

Conventions of the embedding:
* Points are lists of rationals; numpy arrays become Lean lists.
* The global numpy random generator is modelled as an explicit state
  (a natural number) threaded through every stochastic operation; the
  concrete generator is a linear congruential step.  The exact Mersenne
  twister is not modelled: claims only depend on the generator being a
  deterministic state machine.
* Values that can become NaN or infinite (the acquisition scores, where
  the source divides by a possibly-zero sigma) live in the type FP,
  a rational-number model of IEEE floating point special values.
* The standard normal CDF and PDF (scipy norm.cdf / norm.pdf) are
  external library functions; they are parameters (cdf pdf : Q -> Q)
  of the embedding, extended to FP by the IEEE limit values.
* External regression backends (sklearn models) are parameters as well:
  a ModelOps record supplies the per-backend prediction primitives that
  estimate_uncertainty dispatches on.
-/

/-- A point of the search space: one rational coordinate per dimension. -/
abbrev Pt := List ℚ

/-- State of the modelled global numpy random generator. -/
abbrev RngState := Nat

/-- One draw from the modelled generator: a rational in the unit interval
together with the successor state (a linear congruential step). -/
def rngNext (s : RngState) : ℚ × RngState :=
  (((s % 1000 : Nat) : ℚ) / 1000, (s * 1103515245 + 12345) % 2147483648)

/-- Draw n values from the modelled generator, returning the final state. -/
def rngDraws : Nat → RngState → List ℚ × RngState
  | 0, r => ([], r)
  | n + 1, r =>
    let p := rngNext r
    let q := rngDraws n p.2
    (p.1 :: q.1, q.2)

theorem length_rngDraws (n : Nat) (r : RngState) : (rngDraws n r).1.length = n := by
  induction n generalizing r with
  | zero => rfl
  | succ k ih => simp [rngDraws, ih]

/-- Model of an IEEE floating point value: a finite rational, a signed
infinity, or NaN. -/
inductive FP where
  | fin (q : ℚ)
  | posInf
  | negInf
  | nan
deriving DecidableEq, Repr

/-- IEEE addition on the model. -/
def FP.add : FP → FP → FP
  | FP.nan, _ => FP.nan
  | _, FP.nan => FP.nan
  | FP.posInf, FP.negInf => FP.nan
  | FP.negInf, FP.posInf => FP.nan
  | FP.posInf, _ => FP.posInf
  | _, FP.posInf => FP.posInf
  | FP.negInf, _ => FP.negInf
  | _, FP.negInf => FP.negInf
  | FP.fin a, FP.fin b => FP.fin (a + b)

/-- IEEE multiplication on the model (zero times infinity is NaN). -/
def FP.mul : FP → FP → FP
  | FP.nan, _ => FP.nan
  | _, FP.nan => FP.nan
  | FP.fin a, FP.posInf => if 0 < a then FP.posInf else if a < 0 then FP.negInf else FP.nan
  | FP.fin a, FP.negInf => if 0 < a then FP.negInf else if a < 0 then FP.posInf else FP.nan
  | FP.posInf, FP.fin b => if 0 < b then FP.posInf else if b < 0 then FP.negInf else FP.nan
  | FP.negInf, FP.fin b => if 0 < b then FP.negInf else if b < 0 then FP.posInf else FP.nan
  | FP.posInf, FP.posInf => FP.posInf
  | FP.posInf, FP.negInf => FP.negInf
  | FP.negInf, FP.posInf => FP.negInf
  | FP.negInf, FP.negInf => FP.posInf
  | FP.fin a, FP.fin b => FP.fin (a * b)

/-- IEEE division on the model: finite over zero gives a signed infinity,
zero over zero gives NaN (the rational zero is the positive zero). -/
def FP.div : FP → FP → FP
  | FP.nan, _ => FP.nan
  | _, FP.nan => FP.nan
  | FP.posInf, FP.posInf => FP.nan
  | FP.posInf, FP.negInf => FP.nan
  | FP.negInf, FP.posInf => FP.nan
  | FP.negInf, FP.negInf => FP.nan
  | FP.posInf, FP.fin b => if 0 ≤ b then FP.posInf else FP.negInf
  | FP.negInf, FP.fin b => if 0 ≤ b then FP.negInf else FP.posInf
  | FP.fin _, FP.posInf => FP.fin 0
  | FP.fin _, FP.negInf => FP.fin 0
  | FP.fin a, FP.fin b =>
    if b = 0 then (if 0 < a then FP.posInf else if a < 0 then FP.negInf else FP.nan)
    else FP.fin (a / b)

/-- The standard normal CDF extended to the model: its limits at the two
infinities are 1 and 0, and NaN propagates. -/
def fpCdf (cdf : ℚ → ℚ) : FP → FP
  | FP.fin q => FP.fin (cdf q)
  | FP.posInf => FP.fin 1
  | FP.negInf => FP.fin 0
  | FP.nan => FP.nan

/-- The standard normal PDF extended to the model: it vanishes at the two
infinities, and NaN propagates. -/
def fpPdf (pdf : ℚ → ℚ) : FP → FP
  | FP.fin q => FP.fin (pdf q)
  | FP.posInf => FP.fin 0
  | FP.negInf => FP.fin 0
  | FP.nan => FP.nan

/-- np.max over a list of observed outputs (the source only applies it to a
non-empty history; the empty case is given an arbitrary value). -/
def npMax : List ℚ → ℚ
  | [] => 0
  | x :: xs => xs.foldl max x

/-- Embedding of compute_acquisition from the notebook.  The mean and
uncertainty vectors are finite rationals as produced by
estimate_uncertainty; scores are FP values because the expected-improvement
and probability-of-improvement branches divide by sigma, which may be zero.
The random generator state is threaded explicitly: only the Thompson
Sampling and Random branches consume it. -/
def compute_acquisition (cdf pdf : ℚ → ℚ) (acquisition_function : String)
    (mu sigma : List ℚ) (Y_sample : List ℚ) (kappa xi : ℚ) (r : RngState) :
    List FP × RngState :=
  if acquisition_function = "UCB" then
    (mu.zipWith (fun m s => FP.fin (m + kappa * s)) sigma, r)
  else if acquisition_function = "Expected Improvement" then
    let mu_sample_opt := npMax Y_sample
    let ei := mu.zipWith (fun m s =>
      let imp := m - mu_sample_opt - xi
      let z := FP.div (FP.fin imp) (FP.fin s)
      FP.add (FP.mul (FP.fin imp) (fpCdf cdf z)) (FP.mul (FP.fin s) (fpPdf pdf z))) sigma
    (ei.zipWith (fun e s => if s = 0 then FP.fin 0 else e) sigma, r)
  else if acquisition_function = "Probability of Improvement" then
    let mu_sample_opt := npMax Y_sample
    (mu.zipWith (fun m s =>
      fpCdf cdf (FP.div (FP.fin (m - mu_sample_opt - xi)) (FP.fin s))) sigma, r)
  else if acquisition_function = "Thompson Sampling" then
    let zs := rngDraws mu.length r
    ((mu.zip sigma).zipWith (fun p z => FP.fin (p.1 + p.2 * z)) zs.1, zs.2)
  else if acquisition_function = "Random" then
    let us := rngDraws mu.length r
    (us.1.map FP.fin, us.2)
  else
    (mu.zipWith (fun m s => FP.fin (m + kappa * s)) sigma, r)

theorem length_compute_acquisition (cdf pdf : ℚ → ℚ) (af : String)
    (mu sigma Y_sample : List ℚ) (kappa xi : ℚ) (r : RngState)
    (h : mu.length = sigma.length) :
    (compute_acquisition cdf pdf af mu sigma Y_sample kappa xi r).1.length = mu.length := by
  unfold compute_acquisition
  split_ifs <;>
    simp [List.length_zipWith, List.length_zip, length_rngDraws, h]

/-- Arithmetic mean of a list of rationals (np.mean; the empty case is
given the junk value 0/0 = 0 of rational division). -/
def meanQ (l : List ℚ) : ℚ := l.sum / (l.length : ℚ)

/-- Population variance of a list of rationals (np.var semantics). -/
def varQ (l : List ℚ) : ℚ := meanQ (l.map (fun x => (x - meanQ l) ^ 2))

/-- Population standard deviation (np.std), via the exact rational square
root model; only its value at zero matters for the claims. -/
def stdQ (l : List ℚ) : ℚ := Rat.sqrt (varQ l)

/-- Column j of a stack of prediction vectors (rows are forward passes or
ensemble members, as in np.array of per-member predictions). -/
def colVals (preds : List (List ℚ)) (j : Nat) : List ℚ := preds.map (fun p => p.getD j 0)

/-- np.mean(preds, axis=0): one mean per column; the number of columns is
the length of the first row, as for a rectangular numpy stack. -/
def meanAxis0 (preds : List (List ℚ)) : List ℚ :=
  (List.range (preds.headD []).length).map (fun j => meanQ (colVals preds j))

/-- np.std(preds, axis=0): one standard deviation per column. -/
def stdAxis0 (preds : List (List ℚ)) : List ℚ :=
  (List.range (preds.headD []).length).map (fun j => stdQ (colVals preds j))

/-- Prediction primitives of the external sklearn backends, one field per
branch of estimate_uncertainty: the Gaussian process predict with
return_std, the list of fitted random-forest trees, and the deterministic
MLP predict. -/
structure ModelOps where
  predictStd : List Pt → List ℚ × List ℚ
  estimators : List (List Pt → List ℚ)
  predict : List Pt → List ℚ

/-- Embedding of estimate_uncertainty from the notebook: dispatch on the
model name; the Random Forest branch averages the per-tree predictions,
the Neural Network branch repeats the (deterministic) predict T = 10 times
and takes mean and standard deviation across the passes. -/
def estimate_uncertainty (ops : ModelOps) (X : List Pt) (model_name : String) :
    List ℚ × List ℚ :=
  if model_name = "Gaussian Process" then
    ops.predictStd X
  else if model_name = "Random Forest" then
    let all_preds := ops.estimators.map (fun t => t X)
    (meanAxis0 all_preds, stdAxis0 all_preds)
  else if model_name = "Neural Network" then
    let preds := (List.range 10).map (fun _ => ops.predict X)
    (meanAxis0 preds, stdAxis0 preds)
  else
    ops.predictStd X

/-- Per-feature mean of a data matrix (StandardScaler fit). -/
def scaler_mean (data : List Pt) (j : Nat) : ℚ := meanQ (data.map (fun p => p.getD j 0))

/-- Per-feature scale of a data matrix (StandardScaler fit: a zero standard
deviation is replaced by one). -/
def scaler_scale (data : List Pt) (j : Nat) : ℚ :=
  let s := stdQ (data.map (fun p => p.getD j 0))
  if s = 0 then 1 else s

/-- StandardScaler fit on data followed by transform of X, refit from
scratch on the data it is given (as the notebook does every iteration). -/
def standard_scale (data : List Pt) (X : List Pt) : List Pt :=
  X.map (fun x => (List.range x.length).map
    (fun j => (x.getD j 0 - scaler_mean data j) / scaler_scale data j))

/-- Selection-order comparison on FP scores: a sorts before b when a is the
preferable (larger) score.  This is the ascending order of the negated
scores used by np.argpartition, with NaN ordered last as numpy sorts it. -/
def fpSelBefore : FP → FP → Bool
  | _, FP.nan => true
  | FP.nan, _ => false
  | FP.posInf, _ => true
  | _, FP.posInf => false
  | FP.fin a, FP.fin b => decide (b ≤ a)
  | FP.fin _, FP.negInf => true
  | FP.negInf, FP.fin _ => false
  | FP.negInf, FP.negInf => true

theorem fpSelBefore_refl (a : FP) : fpSelBefore a a = true := by
  cases a <;> simp [fpSelBefore]

theorem fpSelBefore_total (a b : FP) : fpSelBefore a b = true ∨ fpSelBefore b a = true := by
  cases a <;> cases b <;> simp [fpSelBefore] <;> exact le_total _ _

theorem fpSelBefore_trans (a b c : FP) (h1 : fpSelBefore a b = true)
    (h2 : fpSelBefore b c = true) : fpSelBefore a c = true := by
  cases a <;> cases b <;> cases c <;> simp_all [fpSelBefore] <;> exact le_trans h2 h1

theorem fpSelBefore_antisymm (a b : FP) (h1 : fpSelBefore a b = true)
    (h2 : fpSelBefore b a = true) : a = b := by
  cases a <;> cases b <;> simp_all [fpSelBefore] <;> exact le_antisymm h2 h1

/-- The score of grid index i (out-of-range indices never arise; they are
given the NaN key). -/
def selKey (acq : List FP) (i : Nat) : FP := acq.getD i FP.nan

/-- Deterministic model of the comparison underlying
np.argpartition(-acq, B-1): indices are ordered by decreasing score and
ties are broken by index order. -/
def selBefore (acq : List FP) (i j : Nat) : Bool :=
  if selKey acq i = selKey acq j then decide (i ≤ j)
  else fpSelBefore (selKey acq i) (selKey acq j)

theorem selBefore_total (acq : List FP) (i j : Nat) :
    selBefore acq i j = true ∨ selBefore acq j i = true := by
  unfold selBefore
  by_cases h : selKey acq i = selKey acq j
  · rw [if_pos h, if_pos h.symm]
    rcases Nat.le_total i j with hle | hle
    · exact Or.inl (by simpa using hle)
    · exact Or.inr (by simpa using hle)
  · rw [if_neg h, if_neg (fun hh => h hh.symm)]
    exact fpSelBefore_total _ _

theorem selBefore_trans (acq : List FP) (i j k : Nat) (h1 : selBefore acq i j = true)
    (h2 : selBefore acq j k = true) : selBefore acq i k = true := by
  unfold selBefore at h1 h2 ⊢
  by_cases hij : selKey acq i = selKey acq j
  · by_cases hjk : selKey acq j = selKey acq k
    · rw [if_pos hij] at h1
      rw [if_pos hjk] at h2
      rw [if_pos (hij.trans hjk)]
      simp only [decide_eq_true_eq] at h1 h2 ⊢
      exact Nat.le_trans h1 h2
    · rw [if_neg hjk] at h2
      have hik : ¬ selKey acq i = selKey acq k := fun hh => hjk (hij.symm.trans hh)
      rw [if_neg hik, hij]
      exact h2
  · by_cases hjk : selKey acq j = selKey acq k
    · rw [if_neg hij] at h1
      have hik : ¬ selKey acq i = selKey acq k := fun hh => hij (hh.trans hjk.symm)
      rw [if_neg hik, ← hjk]
      exact h1
    · rw [if_neg hij] at h1
      rw [if_neg hjk] at h2
      by_cases hik : selKey acq i = selKey acq k
      · have h3 : fpSelBefore (selKey acq j) (selKey acq i) = true := by
          rw [hik]
          exact h2
        exact absurd (fpSelBefore_antisymm _ _ h1 h3) hij
      · rw [if_neg hik]
        exact fpSelBefore_trans _ _ _ h1 h2

/-- The grid indices in selection order (the deterministic model of the
permutation np.argpartition produces). -/
def sortedIdx (acq : List FP) : List Nat :=
  (List.range acq.length).mergeSort (selBefore acq)

/-- The first batch_size entries of the selection order: the concrete value
of np.argpartition(-acq, batch_size-1)[:batch_size]. -/
def argpart_take (acq : List FP) (batch_size : Nat) : List Nat :=
  (sortedIdx acq).take batch_size

/-- Embedding of the batch-selection step
np.argpartition(-acquisition, batch_size-1)[:batch_size].  numpy raises a
ValueError when the (non-negative) kth argument batch_size-1 is not below
the array length; that failure is the error case. -/
def select_batch_indices (acq : List FP) (batch_size : Nat) : Except Unit (List Nat) :=
  if acq.length ≤ batch_size - 1 then Except.error ()
  else Except.ok (argpart_take acq batch_size)

/-- The controller-owned sample state: parallel input and output sequences,
the modelled global generator state, and the number of surrogate fits the
run has performed (the observable cost incurred before a failure). -/
structure BOState where
  xs : List Pt
  ys : List ℚ
  rng : RngState
  fits : Nat
deriving DecidableEq, Repr

/-- Run configuration of the controller: the candidate grid, the external
objective, the external surrogate fit (which may consume generator state
and yields the fitted prediction primitives), and the scalar parameters of
bayesian_optimization. -/
structure BOConfig where
  grid : List Pt
  fitness : List Pt → List ℚ
  mfit : List Pt → List ℚ → RngState → ModelOps × RngState
  model_name : String
  acquisition_function : String
  batch_size : Nat
  kappa : ℚ
  xi : ℚ
  cdf : ℚ → ℚ
  pdf : ℚ → ℚ

/-- The fit-and-predict prefix of one controller iteration: for the Neural
Network the samples and the grid are rescaled by a StandardScaler refit on
the current samples, then the surrogate is fit and mean and uncertainty
are estimated over the grid. -/
def fit_predict (cfg : BOConfig) (xs : List Pt) (ys : List ℚ) (r : RngState) :
    (List ℚ × List ℚ) × RngState :=
  let Xs := if cfg.model_name = "Neural Network" then standard_scale xs xs else xs
  let Xg := if cfg.model_name = "Neural Network" then standard_scale xs cfg.grid else cfg.grid
  let fitted := cfg.mfit Xs ys r
  (estimate_uncertainty fitted.1 Xg cfg.model_name, fitted.2)

/-- One iteration of bayesian_optimization: fit, predict over the grid,
score, select the batch, evaluate the objective there and append.  A
failure of the selection step (the numpy ValueError raised when
batch_size-1 is not below the grid length) aborts the iteration; the error
carries the state at the moment of failure, whose sample set is the
untouched input sample set and whose fit counter records the fit already
performed. -/
def boStep (cfg : BOConfig) (st : BOState) : Except BOState (BOState × List Nat) :=
  let pr := fit_predict cfg st.xs st.ys st.rng
  let acq := compute_acquisition cfg.cdf cfg.pdf cfg.acquisition_function
    pr.1.1 pr.1.2 st.ys cfg.kappa cfg.xi pr.2
  match select_batch_indices acq.1 cfg.batch_size with
  | Except.error _ => Except.error ⟨st.xs, st.ys, acq.2, st.fits + 1⟩
  | Except.ok sel =>
    let X_next := sel.map (fun i => cfg.grid.getD i [])
    let Y_next := cfg.fitness X_next
    Except.ok (⟨st.xs ++ X_next, st.ys ++ Y_next, acq.2, st.fits + 1⟩, sel)

/-- The iteration loop of bayesian_optimization, accumulating the selected
index batch of every iteration. -/
def boLoop (cfg : BOConfig) : Nat → BOState → List (List Nat) →
    Except BOState (BOState × List (List Nat))
  | 0, st, trace => Except.ok (st, trace)
  | n + 1, st, trace =>
    match boStep cfg st with
    | Except.error e => Except.error e
    | Except.ok stsel => boLoop cfg n stsel.1 (trace ++ [stsel.2])

/-- Embedding of bayesian_optimization from the notebook: run the loop for
the given iteration count starting from the initial sample set, with no
fits performed yet. -/
def bayesian_optimization (cfg : BOConfig) (iterations : Nat)
    (X_sample : List Pt) (Y_sample : List ℚ) (r : RngState) :
    Except BOState (BOState × List (List Nat)) :=
  boLoop cfg iterations ⟨X_sample, Y_sample, r, 0⟩ []

/-- np.random.uniform(-2, 2, (n, d)): n times d unit draws from the global
generator, affinely mapped onto the interval from -2 to 2, in row-major
order. -/
def np_uniform_matrix (n d : Nat) (r : RngState) : List Pt × RngState :=
  let us := rngDraws (n * d) r
  (((List.range n).map (fun i => (List.range d).map
    (fun j => -2 + 4 * us.1.getD (i * d + j) 0))), us.2)

/-- Modelled from the spec: the pyDOE Latin Hypercube initializer (an
external library call) draws one point per stratum per axis on the unit
cube; the joint permutation across dimensions is not modelled, only the
stratification and the consumption of generator state. -/
def lhs_model (n d : Nat) (r : RngState) : List Pt × RngState :=
  let us := rngDraws (n * d) r
  (((List.range n).map (fun i => (List.range d).map
    (fun j =>
      let u := us.1.getD (i * d + j) 0
      ((i : ℚ) + u) / (n : ℚ)))), us.2)

/-- Model of scipy qmc Sobol random_base2 (an external library call): it
returns exactly 2 to the m points of a deterministic low-discrepancy
sequence in the unit cube and consumes no global generator state. -/
def sobol_random_base2 (d m : Nat) : List Pt :=
  (List.range (2 ^ m)).map (fun i => List.replicate d ((i : ℚ) / (2 ^ m : ℚ)))

/-- Embedding of initialize_samples from the notebook.  The Sobol branch
asks the sampler for 2 to the int(np.log2(initial_samples)) points, the
truncating base-two logarithm of the requested count; both quasi-random
branches are rescaled from the unit cube to the interval from -2 to 2. -/
def initialize_samples (initial_samples dimensions : Nat)
    (sampling_method : String) (r : RngState) : List Pt × RngState :=
  if sampling_method = "Random" then
    np_uniform_matrix initial_samples dimensions r
  else if sampling_method = "Latin Hypercube" then
    let pts := lhs_model initial_samples dimensions r
    (pts.1.map (fun p => p.map (fun c => c * 4 - 2)), pts.2)
  else if sampling_method = "Sobol" then
    let m := Nat.log2 initial_samples
    ((sobol_random_base2 dimensions m).map (fun p => p.map (fun c => c * 4 - 2)), r)
  else
    np_uniform_matrix initial_samples dimensions r

/-- np.linspace over the search interval. -/
def linspace (lo hi : ℚ) (n : Nat) : List ℚ :=
  (List.range n).map (fun i => lo + (hi - lo) * (i : ℚ) / ((n : ℚ) - 1))

/-- The C-order index tuples of a d-dimensional cube of side n. -/
def idxTuples (n : Nat) : Nat → List (List Nat)
  | 0 => [[]]
  | d + 1 => (List.range n).flatMap (fun i => (idxTuples n d).map (fun t => i :: t))

/-- The flattened Cartesian grid np.vstack([g.ravel() for g in
np.meshgrid(*[x]*d)]).T: meshgrid with the default xy indexing swaps the
first two axes, so the tuple of axis indices has its first two entries
exchanged before being mapped through x. -/
def meshgrid_flat (x : List ℚ) (d : Nat) : List Pt :=
  (idxTuples x.length d).map (fun t =>
    let t2 := match t with
      | a :: b :: rest => b :: a :: rest
      | l => l
    t2.map (fun i => x.getD i 0))

/-- Model of np.random.seed: the ambient global generator state is
discarded and replaced by a state derived from the seed alone. -/
def np_random_seed (_ambient : RngState) (random_state : Nat) : RngState :=
  random_state

/-- Embedding of interactive_bayesian_optimization from the notebook,
restricted to the optimization core the spec covers: seed the global
generator, build the candidate grid, draw the initial samples, evaluate
the objective on them and run bayesian_optimization.  The synthetic
landscape generator and the sklearn surrogate constructor are external
collaborators, passed in as the objective and the mfit field; plotting and
widget wiring are out of scope.  The ambient argument is the global
generator state at entry, which np.random.seed overwrites. -/
def interactive_bayesian_optimization (fitness : List Pt → List ℚ)
    (mfit : List Pt → List ℚ → RngState → ModelOps × RngState)
    (surrogate_model acquisition_function sampling_method : String)
    (kappa xi : ℚ) (iterations batch_size dimensions initial_samples : Nat)
    (random_state : Nat) (cdf pdf : ℚ → ℚ) (ambient : RngState) :
    Except BOState (BOState × List (List Nat)) :=
  let r0 := np_random_seed ambient random_state
  let x := linspace (-2) 2 50
  let X_grid := if dimensions = 1 then x.map (fun v => [v]) else meshgrid_flat x dimensions
  let init := initialize_samples initial_samples dimensions sampling_method r0
  let Y0 := fitness init.1
  let cfg : BOConfig :=
    ⟨X_grid, fitness, mfit, surrogate_model, acquisition_function,
      batch_size, kappa, xi, cdf, pdf⟩
  bayesian_optimization cfg iterations init.1 Y0 init.2

/-- A concrete stand-in instantiation for the external CDF and PDF
parameters, used by witness instantiations. -/
def idQ : ℚ → ℚ := fun q => q

/-- Comparison of two FP scores that holds only when both are finite and
the first does not exceed the second. -/
def fpFinLe : FP → FP → Prop
  | FP.fin a, FP.fin b => a ≤ b
  | _, _ => False

theorem zipWith_getD {α β γ : Type} (f : α → β → γ) (l1 : List α) (l2 : List β)
    (i : Nat) (h1 : i < l1.length) (h2 : i < l2.length) (d : γ) (d1 : α) (d2 : β) :
    (List.zipWith f l1 l2).getD i d = f (l1.getD i d1) (l2.getD i d2) := by
  have h : i < (List.zipWith f l1 l2).length := by
    simp only [List.length_zipWith]
    omega
  rw [List.getD_eq_getElem?_getD, List.getElem?_eq_getElem h, Option.getD_some,
    List.getElem_zipWith, List.getD_eq_getElem?_getD, List.getElem?_eq_getElem h1,
    Option.getD_some, List.getD_eq_getElem?_getD, List.getElem?_eq_getElem h2,
    Option.getD_some]

/-- C1: the probability-of-improvement branch of compute_acquisition does
NOT guard a zero predicted uncertainty: at mu = 1/100, sigma = 0, history
[0] and margin 1/100 the improvement is zero, the division is 0/0 = NaN,
and the NaN propagates through the CDF into the returned score, for every
CDF and PDF instantiation and every generator state.  The claimed neutral
masking, present in the expected-improvement branch, is absent here. -/
theorem c1_pi_unguarded_zero_sigma_nan (cdf pdf : ℚ → ℚ) (r : RngState) :
    (compute_acquisition cdf pdf "Probability of Improvement"
      [1/100] [0] [0] 2 (1/100) r).1 = [FP.nan] := by
  unfold compute_acquisition
  rw [if_neg (by decide), if_neg (by decide), if_pos rfl]
  dsimp only
  norm_num [npMax, FP.div, fpCdf]

/-- C2: in the expected-improvement branch of compute_acquisition, every
candidate whose predicted uncertainty is exactly zero receives the score
exactly zero, for every mean vector, every non-empty observed-output
history, every margin and every generator state. -/
theorem c2_ei_score_zero_at_zero_sigma (cdf pdf : ℚ → ℚ)
    (mu sigma Y_sample : List ℚ) (kappa xi : ℚ) (r : RngState) (i : Nat)
    (hY : Y_sample ≠ []) (h1 : i < mu.length) (h2 : i < sigma.length)
    (hs : sigma.getD i 1 = 0) :
    (compute_acquisition cdf pdf "Expected Improvement"
      mu sigma Y_sample kappa xi r).1.getD i FP.nan = FP.fin 0 := by
  unfold compute_acquisition
  rw [if_neg (by decide), if_pos rfl]
  dsimp only
  rw [zipWith_getD _ _ _ i (by simp only [List.length_zipWith]; omega) h2 FP.nan FP.nan 1,
    hs]
  simp

/-- Witness for C2 at a concrete input. -/
theorem c2_ei_score_zero_at_zero_sigma_witness :
    ([(1 : ℚ)] ≠ []) ∧
    (compute_acquisition idQ idQ "Expected Improvement"
      [5] [0] [1] 2 (1/100) 0).1.getD 0 FP.nan = FP.fin 0 :=
  ⟨by decide,
    c2_ei_score_zero_at_zero_sigma idQ idQ [5] [0] [1] 2 (1/100) 0 0
      (by decide) (by decide) (by decide) (by decide)⟩

/-- C7: for the Sobol initialization strategy with the non-power-of-two
requested count 5, initialize_samples silently returns only 4 points (two
to the truncated base-two logarithm of 5) and raises no configuration
error; the claimed round-up-or-reject behaviour is absent. -/
theorem log2_five : Nat.log2 5 = 2 := by
  rw [Nat.log2]
  norm_num
  rw [Nat.log2]
  norm_num
  rw [Nat.log2]
  norm_num

theorem c7_sobol_silently_returns_fewer_points :
    (initialize_samples 5 1 "Sobol" 0).1.length = 4 ∧
    (initialize_samples 5 1 "Sobol" 0).1.length ≠ 5 := by
  have h : (initialize_samples 5 1 "Sobol" 0).1.length = 4 := by
    unfold initialize_samples
    rw [if_neg (by decide), if_neg (by decide), if_pos rfl]
    dsimp only
    simp only [sobol_random_base2, List.length_map, List.length_range, log2_five]
    norm_num [Function.comp_def]
  exact ⟨h, by rw [h]; decide⟩

/-- C8: the upper-confidence-bound branch of compute_acquisition is
non-decreasing in the uncertainty at every candidate, for any fixed mean
vector and any non-negative exploration weight kappa. -/
theorem c8_ucb_monotone_in_sigma (cdf pdf : ℚ → ℚ)
    (mu Y_sample sigma1 sigma2 : List ℚ) (kappa xi : ℚ) (r : RngState) (i : Nat)
    (hk : 0 ≤ kappa) (h1 : i < mu.length)
    (hs1 : i < sigma1.length) (hs2 : i < sigma2.length)
    (hle : sigma1.getD i 0 ≤ sigma2.getD i 0) :
    fpFinLe
      ((compute_acquisition cdf pdf "UCB" mu sigma1 Y_sample kappa xi r).1.getD i FP.nan)
      ((compute_acquisition cdf pdf "UCB" mu sigma2 Y_sample kappa xi r).1.getD i FP.nan) := by
  unfold compute_acquisition
  rw [if_pos rfl, if_pos rfl]
  dsimp only
  rw [zipWith_getD _ _ _ i h1 hs1 FP.nan 0 0, zipWith_getD _ _ _ i h1 hs2 FP.nan 0 0]
  show mu.getD i 0 + kappa * sigma1.getD i 0 ≤ mu.getD i 0 + kappa * sigma2.getD i 0
  exact add_le_add_left (mul_le_mul_of_nonneg_left hle hk) _

/-- Witness for C8 at a concrete input. -/
theorem c8_ucb_monotone_in_sigma_witness :
    (0 : ℚ) ≤ 2 ∧ ((0 : ℚ) ≤ 1) ∧
    fpFinLe
      ((compute_acquisition idQ idQ "UCB" [1] [0] [0] 2 (1/100) 0).1.getD 0 FP.nan)
      ((compute_acquisition idQ idQ "UCB" [1] [1] [0] 2 (1/100) 0).1.getD 0 FP.nan) :=
  ⟨by norm_num, by norm_num,
    c8_ucb_monotone_in_sigma idQ idQ [1] [0] [0] [1] 2 (1/100) 0 0
      (by norm_num) (by decide) (by decide) (by decide) (by norm_num)⟩

/-- C9 counterexample: compute_acquisition is not a pure function of the
listed arguments for the Thompson Sampling strategy: called twice in
sequence with identical mean, uncertainty, history, weight and margin (the
second call starting from the generator state the first call returns, as
in two successive Python calls), the two score vectors differ. -/
theorem c9_thompson_two_calls_differ :
    (compute_acquisition idQ idQ "Thompson Sampling" [0] [1] [0] 2 (1/100)
      ((compute_acquisition idQ idQ "Thompson Sampling" [0] [1] [0] 2 (1/100) 0).2)).1
    ≠ (compute_acquisition idQ idQ "Thompson Sampling" [0] [1] [0] 2 (1/100) 0).1 := by
  have h1 : compute_acquisition idQ idQ "Thompson Sampling" [0] [1] [0] 2 (1/100) 0
      = ([FP.fin 0], 12345) := by
    unfold compute_acquisition
    rw [if_neg (by decide), if_neg (by decide), if_neg (by decide), if_pos rfl]
    dsimp only
    norm_num [rngDraws, rngNext]
  have h2 : (compute_acquisition idQ idQ "Thompson Sampling" [0] [1] [0] 2 (1/100) 12345).1
      = [FP.fin (69/200)] := by
    unfold compute_acquisition
    rw [if_neg (by decide), if_neg (by decide), if_neg (by decide), if_pos rfl]
    dsimp only
    norm_num [rngDraws, rngNext]
  rw [h1]
  dsimp only
  rw [h2]
  norm_num

/-- C9 amended: for every strategy tag other than Thompson Sampling and
Random (the upper-confidence-bound, expected-improvement and
probability-of-improvement strategies and the unrecognized-tag fallback),
compute_acquisition is a pure function of its listed arguments: the score
vector does not depend on the ambient generator state and the state is
returned unchanged.  The array arguments are never modified, the embedding
being functional as the source is free of in-place writes to them. -/
theorem c9_nonstochastic_strategies_pure (cdf pdf : ℚ → ℚ) (af : String)
    (mu sigma Y_sample : List ℚ) (kappa xi : ℚ) (r r2 : RngState)
    (h1 : af ≠ "Thompson Sampling") (h2 : af ≠ "Random") :
    (compute_acquisition cdf pdf af mu sigma Y_sample kappa xi r).1
      = (compute_acquisition cdf pdf af mu sigma Y_sample kappa xi r2).1 ∧
    (compute_acquisition cdf pdf af mu sigma Y_sample kappa xi r).2 = r := by
  unfold compute_acquisition
  split_ifs <;> simp_all

/-- Witness for the amended C9 at a concrete input. -/
theorem c9_nonstochastic_strategies_pure_witness :
    ("UCB" ≠ "Thompson Sampling") ∧
    (compute_acquisition idQ idQ "UCB" [1] [2] [0] 2 (1/100) 5).1
      = (compute_acquisition idQ idQ "UCB" [1] [2] [0] 2 (1/100) 77).1 ∧
    (compute_acquisition idQ idQ "UCB" [1] [2] [0] 2 (1/100) 5).2 = 5 :=
  ⟨by decide,
    c9_nonstochastic_strategies_pure idQ idQ "UCB" [1] [2] [0] 2 (1/100) 5 77
      (by decide) (by decide)⟩

theorem selBefore_imp_fpSelBefore (acq : List FP) (i j : Nat)
    (h : selBefore acq i j = true) :
    fpSelBefore (selKey acq i) (selKey acq j) = true := by
  unfold selBefore at h
  by_cases hk : selKey acq i = selKey acq j
  · rw [hk]
    exact fpSelBefore_refl _
  · rwa [if_neg hk] at h

theorem sortedIdx_perm (acq : List FP) :
    List.Perm (sortedIdx acq) (List.range acq.length) :=
  List.mergeSort_perm _ _

theorem sortedIdx_length (acq : List FP) : (sortedIdx acq).length = acq.length := by
  rw [(sortedIdx_perm acq).length_eq, List.length_range]

theorem sortedIdx_nodup (acq : List FP) : (sortedIdx acq).Nodup :=
  ((sortedIdx_perm acq).nodup_iff).mpr (List.nodup_range _)

theorem sortedIdx_mem (acq : List FP) (i : Nat) : i ∈ sortedIdx acq ↔ i < acq.length := by
  rw [(sortedIdx_perm acq).mem_iff, List.mem_range]

theorem sortedIdx_sorted (acq : List FP) :
    (sortedIdx acq).Pairwise (fun a b => selBefore acq a b = true) := by
  exact List.sorted_mergeSort (fun a b c => selBefore_trans acq a b c)
    (fun a b => by rcases selBefore_total acq a b with h | h <;> simp [h])
    (List.range acq.length)

theorem sortedIdx_cross (acq : List FP) (B : Nat) (i j : Nat)
    (hi : i ∈ (sortedIdx acq).take B) (hj : j ∈ (sortedIdx acq).drop B) :
    selBefore acq i j = true := by
  have hp : ((sortedIdx acq).take B ++ (sortedIdx acq).drop B).Pairwise
      (fun a b => selBefore acq a b = true) := by
    rw [List.take_append_drop]
    exact sortedIdx_sorted acq
  exact (List.pairwise_append.mp hp).2.2 i hi j hj

theorem argpart_take_length (acq : List FP) (B : Nat) (hB : B ≤ acq.length) :
    (argpart_take acq B).length = B := by
  rw [argpart_take, List.length_take, sortedIdx_length]
  exact Nat.min_eq_left hB

theorem argpart_take_nodup (acq : List FP) (B : Nat) : (argpart_take acq B).Nodup :=
  (sortedIdx_nodup acq).sublist (List.take_sublist _ _)

theorem argpart_take_mem_lt (acq : List FP) (B : Nat) (i : Nat)
    (hi : i ∈ argpart_take acq B) : i < acq.length :=
  (sortedIdx_mem acq i).mp (List.mem_of_mem_take hi)

theorem argpart_take_dominates (acq : List FP) (B : Nat) (i j : Nat)
    (hi : i ∈ argpart_take acq B) (hj : j < acq.length) (hjn : j ∉ argpart_take acq B) :
    fpSelBefore (selKey acq i) (selKey acq j) = true := by
  have hjL : j ∈ sortedIdx acq := (sortedIdx_mem acq j).mpr hj
  have hjd : j ∈ (sortedIdx acq).drop B := by
    rcases (List.mem_append.mp (by rwa [List.take_append_drop] : j ∈
        (sortedIdx acq).take B ++ (sortedIdx acq).drop B)) with h | h
    · exact absurd h hjn
    · exact h
  exact selBefore_imp_fpSelBefore acq i j (sortedIdx_cross acq B i j hi hjd)

theorem select_batch_indices_eq_ok (acq : List FP) (B : Nat)
    (hB1 : 1 ≤ B) (hB : B ≤ acq.length) :
    select_batch_indices acq B = Except.ok (argpart_take acq B) := by
  unfold select_batch_indices
  rw [if_neg (by omega)]

theorem select_batch_indices_eq_error (acq : List FP) (B : Nat)
    (hB : acq.length < B) :
    select_batch_indices acq B = Except.error () := by
  unfold select_batch_indices
  rw [if_pos (by omega)]

theorem boStep_ok (cfg : BOConfig) (st : BOState)
    (Hfp : ∀ (xs : List Pt) (ys : List ℚ) (r : RngState),
      (fit_predict cfg xs ys r).1.1.length = cfg.grid.length ∧
      (fit_predict cfg xs ys r).1.2.length = cfg.grid.length)
    (Hfit : ∀ pts : List Pt, (cfg.fitness pts).length = pts.length)
    (hB1 : 1 ≤ cfg.batch_size) (hB : cfg.batch_size ≤ cfg.grid.length) :
    ∃ st2 sel, boStep cfg st = Except.ok (st2, sel) ∧
      st2.xs.length = st.xs.length + cfg.batch_size ∧
      st2.ys.length = st.ys.length + cfg.batch_size := by
  obtain ⟨hmu, hsigma⟩ := Hfp st.xs st.ys st.rng
  unfold boStep
  dsimp only
  have hal : (compute_acquisition cfg.cdf cfg.pdf cfg.acquisition_function
      (fit_predict cfg st.xs st.ys st.rng).1.1 (fit_predict cfg st.xs st.ys st.rng).1.2
      st.ys cfg.kappa cfg.xi (fit_predict cfg st.xs st.ys st.rng).2).1.length
      = cfg.grid.length := by
    rw [length_compute_acquisition _ _ _ _ _ _ _ _ _ (hmu.trans hsigma.symm)]
    exact hmu
  rw [select_batch_indices_eq_ok _ _ hB1 (by rw [hal]; exact hB)]
  refine ⟨_, _, rfl, ?_, ?_⟩
  · simp only [List.length_append, List.length_map]
    rw [argpart_take_length _ _ (by rw [hal]; exact hB)]
  · simp only [List.length_append, Hfit, List.length_map]
    rw [argpart_take_length _ _ (by rw [hal]; exact hB)]

theorem boLoop_ok (cfg : BOConfig)
    (Hfp : ∀ (xs : List Pt) (ys : List ℚ) (r : RngState),
      (fit_predict cfg xs ys r).1.1.length = cfg.grid.length ∧
      (fit_predict cfg xs ys r).1.2.length = cfg.grid.length)
    (Hfit : ∀ pts : List Pt, (cfg.fitness pts).length = pts.length)
    (hB1 : 1 ≤ cfg.batch_size) (hB : cfg.batch_size ≤ cfg.grid.length) :
    ∀ (k : Nat) (st : BOState) (tr : List (List Nat)),
      ∃ st2 tr2, boLoop cfg k st tr = Except.ok (st2, tr2) ∧
        st2.xs.length = st.xs.length + k * cfg.batch_size ∧
        st2.ys.length = st.ys.length + k * cfg.batch_size := by
  intro k
  induction k with
  | zero =>
    intro st tr
    exact ⟨st, tr, rfl, by simp, by simp⟩
  | succ n ih =>
    intro st tr
    obtain ⟨st2, sel, hstep, hx, hy⟩ := boStep_ok cfg st Hfp Hfit hB1 hB
    obtain ⟨st3, tr3, hloop, hx2, hy2⟩ := ih st2 (tr ++ [sel])
    refine ⟨st3, tr3, ?_, ?_, ?_⟩
    · unfold boLoop
      rw [hstep]
      exact hloop
    · rw [hx2, hx, Nat.succ_mul]
      omega
    · rw [hy2, hy, Nat.succ_mul]
      omega

/-- C5: for every configuration whose surrogate prediction returns one
mean and one uncertainty per grid point, whose objective returns one
output per input, and whose batch size is between one and the grid size,
a run of k iterations succeeds and leaves the inputs sequence with
exactly initial_count + k times batch_size entries, with the outputs
sequence always of the same length as the inputs sequence (this holds for
every iteration count k, hence after every iteration of a longer run). -/
theorem c5_sample_lengths (cfg : BOConfig) (k : Nat)
    (X0 : List Pt) (Y0 : List ℚ) (r : RngState)
    (Hfp : ∀ (xs : List Pt) (ys : List ℚ) (r2 : RngState),
      (fit_predict cfg xs ys r2).1.1.length = cfg.grid.length ∧
      (fit_predict cfg xs ys r2).1.2.length = cfg.grid.length)
    (Hfit : ∀ pts : List Pt, (cfg.fitness pts).length = pts.length)
    (hB1 : 1 ≤ cfg.batch_size) (hB : cfg.batch_size ≤ cfg.grid.length)
    (h0 : Y0.length = X0.length) :
    ∃ st2 tr2, bayesian_optimization cfg k X0 Y0 r = Except.ok (st2, tr2) ∧
      st2.xs.length = X0.length + k * cfg.batch_size ∧
      st2.ys.length = st2.xs.length := by
  obtain ⟨st2, tr2, hrun, hx, hy⟩ := boLoop_ok cfg Hfp Hfit hB1 hB k ⟨X0, Y0, r, 0⟩ []
  exact ⟨st2, tr2, hrun, hx, by rw [hy, hx]; simp [h0]⟩

/-- A constant external surrogate used by concrete instantiations: it
predicts mean zero and uncertainty zero everywhere. -/
def opsZero : ModelOps :=
  ⟨fun X => (X.map (fun _ => 0), X.map (fun _ => 0)), [], fun X => X.map (fun _ => 0)⟩

/-- A concrete test configuration on the one-point grid, with the constant
zero objective, the constant surrogate, the Gaussian Process branch and
the upper-confidence-bound strategy. -/
def mkTestCfg (B : Nat) : BOConfig :=
  ⟨[[0]], fun pts => pts.map (fun _ => 0), fun _ _ r => (opsZero, r),
    "Gaussian Process", "UCB", B, 2, 1/100, idQ, idQ⟩

/-- Witness for C5 at a concrete configuration. -/
theorem c5_sample_lengths_witness :
    (1 ≤ (mkTestCfg 1).batch_size ∧ (mkTestCfg 1).batch_size ≤ (mkTestCfg 1).grid.length) ∧
    (∃ st2 tr2, bayesian_optimization (mkTestCfg 1) 2 [[0]] [0] 0 = Except.ok (st2, tr2) ∧
      st2.xs.length = [[0]].length + 2 * (mkTestCfg 1).batch_size ∧
      st2.ys.length = st2.xs.length) :=
  ⟨⟨by decide, by decide⟩,
    c5_sample_lengths (mkTestCfg 1) 2 [[0]] [0] 0
      (fun xs ys r2 => ⟨rfl, rfl⟩)
      (fun pts => by simp [mkTestCfg])
      (by decide) (by decide) (by decide)⟩

/-- C3 amended: the controller does not validate the batch size before the
loop; when the batch size exceeds the grid size, the first iteration fits
the surrogate and predicts and scores the whole grid, and only then
aborts at the batch-selection step with the numpy error.  No iteration
completes, nothing is appended: the sample set carried by the error is
exactly the initial one, but the recorded fit count at failure is one,
not zero. -/
theorem c3_reject_happens_inside_first_iteration (cfg : BOConfig) (k : Nat)
    (X0 : List Pt) (Y0 : List ℚ) (r : RngState)
    (Hfp : ∀ (xs : List Pt) (ys : List ℚ) (r2 : RngState),
      (fit_predict cfg xs ys r2).1.1.length = cfg.grid.length ∧
      (fit_predict cfg xs ys r2).1.2.length = cfg.grid.length)
    (hB : cfg.grid.length < cfg.batch_size) :
    ∃ r2, bayesian_optimization cfg (k + 1) X0 Y0 r = Except.error ⟨X0, Y0, r2, 1⟩ := by
  obtain ⟨hmu, hsigma⟩ := Hfp X0 Y0 r
  unfold bayesian_optimization boLoop boStep
  dsimp only
  have hal : (compute_acquisition cfg.cdf cfg.pdf cfg.acquisition_function
      (fit_predict cfg X0 Y0 r).1.1 (fit_predict cfg X0 Y0 r).1.2
      Y0 cfg.kappa cfg.xi (fit_predict cfg X0 Y0 r).2).1.length
      = cfg.grid.length := by
    rw [length_compute_acquisition _ _ _ _ _ _ _ _ _ (hmu.trans hsigma.symm)]
    exact hmu
  rw [select_batch_indices_eq_error _ _ (by rw [hal]; exact hB)]
  exact ⟨_, rfl⟩

/-- Witness for the amended C3 at a concrete configuration. -/
theorem c3_reject_happens_inside_first_iteration_witness :
    ((mkTestCfg 2).grid.length < (mkTestCfg 2).batch_size) ∧
    (∃ r2, bayesian_optimization (mkTestCfg 2) 1 [[0]] [0] 0
      = Except.error ⟨[[0]], [0], r2, 1⟩) :=
  ⟨by decide,
    c3_reject_happens_inside_first_iteration (mkTestCfg 2) 0 [[0]] [0] 0
      (fun xs ys r2 => ⟨rfl, rfl⟩) (by decide)⟩

/-- C3 counterexample: on the one-point grid with batch size two and one
requested iteration, the run is not rejected before any iteration work:
it fails with the recorded fit count one (the first iteration fit the
surrogate, predicted and scored before the selection step raised), not
zero as a pre-loop rejection would give.  The sample set at failure is
the unchanged initial one. -/
theorem c3_counterexample_fit_performed_before_reject :
    bayesian_optimization (mkTestCfg 2) 1 [[0]] [0] 0
      = Except.error ⟨[[0]], [0], 0, 1⟩ := by
  rfl

/-- C6: re-running interactive_bayesian_optimization with an identical
seed, identical configuration, the same deterministic objective and the
same surrogate backend yields identical results, whatever the ambient
global generator states of the two runs were: the seed call overwrites
the generator, and the result (the final sample set together with the
selected-batch index list of every iteration) depends only on the listed
inputs. -/
theorem c6_identical_seed_identical_run (fitness : List Pt → List ℚ)
    (mfit : List Pt → List ℚ → RngState → ModelOps × RngState)
    (surrogate_model acquisition_function sampling_method : String)
    (kappa xi : ℚ) (iterations batch_size dimensions initial_samples : Nat)
    (random_state : Nat) (cdf pdf : ℚ → ℚ) (ambient1 ambient2 : RngState) :
    interactive_bayesian_optimization fitness mfit surrogate_model
      acquisition_function sampling_method kappa xi iterations batch_size
      dimensions initial_samples random_state cdf pdf ambient1
    = interactive_bayesian_optimization fitness mfit surrogate_model
      acquisition_function sampling_method kappa xi iterations batch_size
      dimensions initial_samples random_state cdf pdf ambient2 := rfl

/-- Strict preference between two FP scores in the selection order: a is
strictly preferred to b. -/
def fpStrictBefore (a b : FP) : Bool := fpSelBefore a b && !(fpSelBefore b a)

/-- Position of the most preferred key among positions pos and later of
the working permutation, scanning left to right and keeping the earlier
position on ties (a selection-sort minimum scan over the negated
scores). -/
def argBestFrom (acq : List FP) (perm : List Nat) (pos : Nat) : Nat :=
  (List.range (perm.length - (pos + 1))).foldl
    (fun best off =>
      let j := pos + 1 + off
      if fpStrictBefore (selKey acq (perm.getD j 0)) (selKey acq (perm.getD best 0)) then j
      else best)
    pos

/-- Swap two positions of an index list. -/
def swapIdx (l : List Nat) (i j : Nat) : List Nat :=
  (l.set i (l.getD j 0)).set j (l.getD i 0)

/-- The selection-sort loop: swap the most preferred remaining index into
each position in turn.  Earlier swaps reorder the tail of the working
array, so ties are kept in working-array order, not original index
order. -/
def npSelectionAux (acq : List FP) : Nat → Nat → List Nat → List Nat
  | 0, _, perm => perm
  | fuel + 1, pos, perm =>
    npSelectionAux acq fuel (pos + 1) (swapIdx perm pos (argBestFrom acq perm pos))

/-- Model of the selection path the numpy argpartition implementation
follows on small arrays: a selection sort with swaps over the index
array.  Its output satisfies the documented partition contract for every
kth, but it does not break score ties by original index order, because
the swap performed for an earlier position can move a tied index past
another. -/
def np_argpartition_selection (acq : List FP) : List Nat :=
  npSelectionAux acq acq.length 0 (List.range acq.length)

/-- The documented contract of np.argpartition(-acq, kth): the returned
index list is a permutation of the grid indices, the element at position
kth is in its sorted place, every earlier position holds a score that
precedes it in the selection order, and every later position holds one it
precedes.  Everything beyond this, in particular the order among tied
scores, is unspecified by numpy. -/
def IsArgpartition (acq : List FP) (kth : Nat) (perm : List Nat) : Prop :=
  List.Perm perm (List.range acq.length) ∧
  (∀ i, i < kth →
    fpSelBefore (selKey acq (perm.getD i 0)) (selKey acq (perm.getD kth 0)) = true) ∧
  (∀ j, j < perm.length → kth < j →
    fpSelBefore (selKey acq (perm.getD kth 0)) (selKey acq (perm.getD j 0)) = true)

/-- C4 counterexample: ties are not broken by index order.  On the score
vector [2, 2, 3] with batch size 2 (kth = 1), the selection path numpy
follows on small arrays returns the permutation [2, 1, 0] - a valid
argpartition - whose first two positions select the index set containing
1 and 2: index 1 is selected while index 0 is omitted although both
score two and 0 is the smaller index.  The swap that moved index 2 to
the front reordered the tied pair. -/
theorem c4_counterexample_tie_not_by_index_order :
    np_argpartition_selection [FP.fin 2, FP.fin 2, FP.fin 3] = [2, 1, 0] ∧
    IsArgpartition [FP.fin 2, FP.fin 2, FP.fin 3] 1 [2, 1, 0] ∧
    selKey [FP.fin 2, FP.fin 2, FP.fin 3] 0 = selKey [FP.fin 2, FP.fin 2, FP.fin 3] 1 ∧
    (0 : Nat) < 1 ∧
    1 ∈ ([2, 1, 0] : List Nat).take 2 ∧
    0 ∉ ([2, 1, 0] : List Nat).take 2 := by
  refine ⟨by decide, ⟨by decide, ?_, ?_⟩, by decide, by decide, by decide, by decide⟩
  · intro i hi
    interval_cases i
    decide
  · intro j hj hj1
    have hj3 : j < 3 := by simpa using hj
    interval_cases j <;> decide

/-- C4 amended: for every batch size B between one and the grid size and
every index permutation satisfying the documented argpartition contract
for kth = B - 1 (the concrete selection used by the controller and the
numpy selection path both do), the selected prefix of length B consists
of exactly B distinct in-range grid indices, and the score of every
selected index precedes, in the selection order (descending, NaN last),
the score of every omitted index: the selection is a top-B set of exact
size B, with the order among tied scores at the boundary left
unspecified. -/
theorem c4_selected_batch_is_top_B_set (acq : List FP) (B : Nat) (perm : List Nat)
    (hB1 : 1 ≤ B) (hB : B ≤ acq.length) (hpart : IsArgpartition acq (B - 1) perm) :
    (perm.take B).length = B ∧
    (perm.take B).Nodup ∧
    (∀ i ∈ perm.take B, i < acq.length) ∧
    (∀ i ∈ perm.take B, ∀ j, j < acq.length → j ∉ perm.take B →
      fpSelBefore (selKey acq i) (selKey acq j) = true) := by
  obtain ⟨hperm, hlow, hhigh⟩ := hpart
  have hlen : perm.length = acq.length := by rw [hperm.length_eq, List.length_range]
  have hnodup : perm.Nodup := hperm.nodup_iff.mpr (List.nodup_range _)
  refine ⟨?_, ?_, ?_, ?_⟩
  · rw [List.length_take, hlen]
    exact Nat.min_eq_left hB
  · exact hnodup.sublist (List.take_sublist _ _)
  · intro i hi
    exact List.mem_range.mp (hperm.mem_iff.mp (List.mem_of_mem_take hi))
  · intro i hi j hj hjn
    obtain ⟨pi, hpi, hpieq⟩ := List.mem_iff_getElem.mp hi
    rw [List.length_take] at hpi
    obtain ⟨hpiB, hpilt⟩ := Nat.lt_min.mp hpi
    have hieq : perm.getD pi 0 = i := by
      have h1 : perm[pi] = i := by
        rw [← hpieq, List.getElem_take]
      rw [List.getD_eq_getElem?_getD, List.getElem?_eq_getElem hpilt, Option.getD_some]
      exact h1
    have hjmem : j ∈ perm := hperm.mem_iff.mpr (List.mem_range.mpr hj)
    obtain ⟨pj, hpj, hpjeq⟩ := List.mem_iff_getElem.mp hjmem
    have hjeq : perm.getD pj 0 = j := by
      rw [List.getD_eq_getElem?_getD, List.getElem?_eq_getElem hpj, Option.getD_some]
      exact hpjeq
    have hpjB : B ≤ pj := by
      by_contra hc
      exact hjn (List.mem_iff_getElem.mpr
        ⟨pj, by rw [List.length_take]; omega, by rw [List.getElem_take]; exact hpjeq⟩)
    have step1 : fpSelBefore (selKey acq (perm.getD pi 0))
        (selKey acq (perm.getD (B - 1) 0)) = true := by
      rcases Nat.lt_or_ge pi (B - 1) with hlt | hge
      · exact hlow pi hlt
      · have hpieqk : pi = B - 1 := by omega
        rw [hpieqk]
        exact fpSelBefore_refl _
    have step2 : fpSelBefore (selKey acq (perm.getD (B - 1) 0))
        (selKey acq (perm.getD pj 0)) = true :=
      hhigh pj hpj (by omega)
    have := fpSelBefore_trans _ _ _ step1 step2
    rwa [hieq, hjeq] at this

/-- Witness for the amended C4 at a concrete score vector and a concrete
valid argpartition permutation. -/
theorem c4_selected_batch_is_top_B_set_witness :
    (1 ≤ 2 ∧ 2 ≤ ([FP.fin 1, FP.fin 3, FP.fin 2] : List FP).length ∧
      IsArgpartition [FP.fin 1, FP.fin 3, FP.fin 2] 1 [1, 2, 0]) ∧
    ((([1, 2, 0] : List Nat).take 2).length = 2 ∧
      (([1, 2, 0] : List Nat).take 2).Nodup ∧
      (∀ i ∈ ([1, 2, 0] : List Nat).take 2, i < ([FP.fin 1, FP.fin 3, FP.fin 2] : List FP).length) ∧
      (∀ i ∈ ([1, 2, 0] : List Nat).take 2, ∀ j,
        j < ([FP.fin 1, FP.fin 3, FP.fin 2] : List FP).length →
        j ∉ ([1, 2, 0] : List Nat).take 2 →
        fpSelBefore (selKey [FP.fin 1, FP.fin 3, FP.fin 2] i)
          (selKey [FP.fin 1, FP.fin 3, FP.fin 2] j) = true)) :=
  ⟨⟨by decide, by decide,
      ⟨by decide,
        fun i hi => by interval_cases i <;> decide,
        fun j hj hj1 => by
          have hj3 : j < 3 := by simpa using hj
          interval_cases j <;> decide⟩⟩,
    c4_selected_batch_is_top_B_set [FP.fin 1, FP.fin 3, FP.fin 2] 2 [1, 2, 0]
      (by decide) (by decide)
      ⟨by decide,
        fun i hi => by interval_cases i <;> decide,
        fun j hj hj1 => by
          have hj3 : j < 3 := by simpa using hj
          interval_cases j <;> decide⟩⟩
